import Mathlib

/-!
A shallow embedding of the test-execution core of the `smartqa-hub`
repository: the `APITester` component of `src/ai/generator.js`
(variable interpolation, retry/backoff around HTTP requests, the
assertion evaluator, load-test worker ramp-up) and the `SmartQACore`
engine of `src/core/engine.js` (step interpreter and per-test runner
loop).  JavaScript values are modelled by the mutual inductive
`JValue`/`JArray`/`JFields` (arrays and objects carry their elements
through dedicated list-like types so that all functions are
structurally recursive and kernel-evaluable), fallible operations by
`Except String`, and the asynchronous while loop of `makeRequest` by a
structurally recursive function whose first argument mirrors the loop
bound `retries - attempt`.
-/

namespace SmartQA

deriving instance DecidableEq for Except

mutual
/-- Model of a JavaScript value as it appears in the test context and in
request/response bodies: strings, integer numbers, booleans, `null`,
`undefined`, arrays and plain objects.  Floating point, functions and
reference identity are not modelled. -/
inductive JValue : Type where
  | str (s : String)
  | num (n : Int)
  | bool (b : Bool)
  | null
  | undefined
  | arr (items : JArray)
  | obj (fields : JFields)
deriving DecidableEq

/-- Array of JavaScript values (a list, kept mutual with `JValue`). -/
inductive JArray : Type where
  | nil
  | cons (head : JValue) (tail : JArray)
deriving DecidableEq

/-- Fields of a JavaScript object, in insertion order. -/
inductive JFields : Type where
  | nil
  | cons (key : String) (val : JValue) (tail : JFields)
deriving DecidableEq
end

/-- JavaScript truthiness of a `JValue` (`undefined`, `null`, `false`,
`0` and the empty string are falsy; every array and object is truthy). -/
def truthy : JValue → Bool
  | .undefined => false
  | .null => false
  | .bool b => b
  | .num n => n != 0
  | .str s => s != ""
  | .arr _ => true
  | .obj _ => true

mutual
/-- The `String(v)` / template-literal stringification of a `JValue`
(arrays join their elements with `,`; objects print as
`[object Object]`, as in JavaScript). -/
def toStringJS : JValue → String
  | .str s => s
  | .num n => toString n
  | .bool b => if b then "true" else "false"
  | .null => "null"
  | .undefined => "undefined"
  | .arr items => arrToStringJS items
  | .obj _ => "[object Object]"

/-- Stringification of the elements of an array, comma separated. -/
def arrToStringJS : JArray → String
  | .nil => ""
  | .cons v .nil => toStringJS v
  | .cons v rest => toStringJS v ++ "," ++ arrToStringJS rest
end

/-- Property read `fields[key]` on an object's field list; an absent key
reads as `undefined`.  The same lookup models `testContext[key]` for the
ad hoc test-context object of `APITester`. -/
def ctxGet : JFields → String → JValue
  | .nil, _ => .undefined
  | .cons k v rest, key => if k = key then v else ctxGet rest key

/-- Element read `items[i]` on an array; out of range reads as
`undefined`. -/
def arrGet : JArray → Nat → JValue
  | .nil, _ => .undefined
  | .cons v _, 0 => v
  | .cons _ rest, i + 1 => arrGet rest i

/-- Property read `v[key]` on an arbitrary `JValue`: field lookup on an
object, numeric-string indexing on an array, `undefined` otherwise
(primitive wrapper properties such as `"length"` are not modelled; the
assertion evaluator only traverses structured bodies). -/
def objGet : JValue → String → JValue
  | .obj fields, key => ctxGet fields key
  | .arr items, key =>
      match key.toNat? with
      | some i => arrGet items i
      | none => .undefined
  | _, _ => .undefined

/-- Outcome status of a step or test (`stepResult.status` /
`testResult.status` in the source, restricted to the two terminal
values). -/
inductive Status : Type where
  | passed
  | failed
deriving DecidableEq

namespace API

/-- The opening brace character. -/
def lbrace : Char := Char.ofNat 123

/-- The closing brace character. -/
def rbrace : Char := Char.ofNat 125

/-- A word character in the sense of the JavaScript regex class `\w`:
ASCII letter, digit, or underscore. -/
def isWordChar (c : Char) : Bool :=
  c.isAlphanum || c = Char.ofNat 95

/-- Core of `interpolateVariables` on strings: the global regex replace
`obj.replace(/\{\{(\w+)\}\}/g, (match, key) => context[key] !== undefined
? context[key] : match)` of `src/ai/generator.js`, executed left to
right over the character list.  A placeholder is a maximal nonempty run
of word characters between double braces; a bound key is replaced by the
stringified stored value, an unbound key (or a key stored as
`undefined`) leaves the match untouched, and scanning resumes after the
match either way.  The first argument is fuel; every recursive call
consumes at least one input character, so fuel equal to the input
length (as supplied by `interpolateString`) makes the fuel bound
unreachable. -/
def interpGo (ctx : JFields) : Nat → List Char → List Char
  | 0, l => l
  | _ + 1, [] => []
  | fuel + 1, c :: cs =>
    if c = lbrace then
      match cs with
      | [] => [c]
      | c2 :: rest =>
        if c2 = lbrace then
          let word := rest.takeWhile isWordChar
          match rest.dropWhile isWordChar with
          | c3 :: c4 :: tail =>
            if !word.isEmpty && c3 == rbrace && c4 == rbrace then
              if ctxGet ctx (String.mk word) = JValue.undefined then
                c :: c2 :: (word ++ c3 :: c4 :: interpGo ctx fuel tail)
              else
                (toStringJS (ctxGet ctx (String.mk word))).data
                  ++ interpGo ctx fuel tail
            else
              c :: interpGo ctx fuel cs
          | _ =>
            c :: interpGo ctx fuel cs
        else
          c :: interpGo ctx fuel cs
    else
      c :: interpGo ctx fuel cs

/-- Function `interpolateVariables` restricted to a string input. -/
def interpolateString (ctx : JFields) (s : String) : String :=
  String.mk (interpGo ctx s.data.length s.data)

mutual
/-- Source `APITester.interpolateVariables(obj, context)`: strings get the
placeholder substitution, arrays and objects are mapped recursively,
every other value is returned unchanged (as in the source, `null`,
numbers and booleans fall through to the final `return obj`). -/
def interpolateVariables (ctx : JFields) : JValue → JValue
  | .str s => .str (interpolateString ctx s)
  | .arr items => .arr (interpolateArr ctx items)
  | .obj fields => .obj (interpolateObj ctx fields)
  | v => v

/-- Elementwise interpolation of an array (`obj.map(item => ...)`). -/
def interpolateArr (ctx : JFields) : JArray → JArray
  | .nil => .nil
  | .cons v rest => .cons (interpolateVariables ctx v) (interpolateArr ctx rest)

/-- Fieldwise interpolation of an object's values
(`result[key] = this.interpolateVariables(value, context)`). -/
def interpolateObj (ctx : JFields) : JFields → JFields
  | .nil => .nil
  | .cons k v rest => .cons k (interpolateVariables ctx v) (interpolateObj ctx rest)
end

/-- The retry loop of `APITester.makeRequest`: `while (attempt <
this.config.retries)` run the fallible work unit (the `this.client(config)`
call together with the optional response-schema validation); on success
return the response; on failure record it in `lastError`, increment
`attempt`, and when budget remains wait `Math.pow(2, attempt) * base`
milliseconds (the source hardcodes `base = 1000`); after the loop,
`throw lastError`.  The work unit is indexed by the attempt counter at
the time of the call.  The first argument is the loop bound
`retries - attempt`, which makes the recursion structural; the result
is the returned value or thrown error (`none` models throwing the
still-`undefined` `lastError` when `retries = 0`), paired with the
number of calls made to the work unit and the total delay waited. -/
def retryGo {E A : Type} (work : Nat → Except E A) (retries base : Nat) :
    Nat → Nat → Option E → Nat → Nat → (Except (Option E) A) × Nat × Nat
  | 0, _, lastError, calls, delay => (.error lastError, calls, delay)
  | remaining + 1, attempt, _lastError, calls, delay =>
    match work attempt with
    | .ok a => (.ok a, calls + 1, delay)
    | .error e =>
      retryGo work retries base remaining (attempt + 1) (some e) (calls + 1)
        (if attempt + 1 < retries then delay + 2 ^ (attempt + 1) * base else delay)
    termination_by structural remaining => remaining

/-- Source `APITester.makeRequest` with an explicit base delay: start the retry
loop with `attempt = 0`, no `lastError`, no calls and no delay. -/
def makeRequest {E A : Type} (work : Nat → Except E A) (retries base : Nat) :
    (Except (Option E) A) × Nat × Nat :=
  retryGo work retries base retries 0 none 0 0

/-- Source `APITester.makeRequest` as written, where the backoff
base delay is the literal `1000` milliseconds. -/
def makeRequestJS {E A : Type} (work : Nat → Except E A) (retries : Nat) :
    (Except (Option E) A) × Nat × Nat :=
  makeRequest work retries 1000

/-- An axios response as far as the embedding needs it: the HTTP status
code and the parsed body.  Because the client is created with
`validateStatus: () => true`, a received status code — 2xx or 5xx alike
— is delivered as an `Except.ok` response; only transport failures (and
schema-validation failures) surface as `Except.error` to the retry
loop. -/
structure HttpResponse : Type where
  status : Nat
  data : JValue := .undefined
deriving DecidableEq

/-- The `request` branch of `APITester.executeAPIStep`: run
`makeRequest`; a returned response marks the step outcome `passed`, a
thrown error is caught and marks it `failed`.  Returns the outcome
status together with the number of underlying HTTP calls made. -/
def executeRequestStep (endpoint : Nat → Except String HttpResponse)
    (retries base : Nat) : Status × Nat :=
  match makeRequest endpoint retries base with
  | (.ok _, calls, _) => (.passed, calls)
  | (.error _, calls, _) => (.failed, calls)

/-- The ramp-up schedule of `APITester.runLoadTest`: worker `i`
(0-indexed) is started by `setTimeout(..., (i * rampUp) / concurrency)`;
the offset is the exact rational value of that JavaScript division. -/
def workerOffset (rampUp concurrency : Nat) (i : Nat) : ℚ :=
  ((i : ℚ) * (rampUp : ℚ)) / (concurrency : ℚ)

/-- The dot character, the separator of `path.split('.')`. -/
def dot : Char := Char.ofNat 46

/-- Accumulator loop of `path.split('.')`: `acc` holds the characters of
the current segment in reverse. -/
def splitGo : List Char → List Char → List String
  | acc, [] => [String.mk acc.reverse]
  | acc, c :: cs =>
    if c = dot then String.mk acc.reverse :: splitGo [] cs
    else splitGo (c :: acc) cs
    termination_by structural _ cs => cs

/-- JavaScript `path.split('.')`: the dot-separated segments of the
path, with empty segments preserved (`""` splits to `[""]`, `"a..b"` to
`["a", "", "b"]`, exactly as in JavaScript). -/
def splitPath (path : String) : List String :=
  splitGo [] path.data

/-- Source `APITester.getNestedValue(obj, path)`: split the dotted path and
fold `(current, key) => current && current[key] !== undefined ?
current[key] : undefined` over the keys, starting from the object. -/
def getNestedValue (obj : JValue) (path : String) : JValue :=
  (splitPath path).foldl
    (fun current key =>
      if truthy current && !(objGet current key == JValue.undefined)
      then objGet current key else JValue.undefined)
    obj

/-- An `assertion` step's specification (`step.assertion` in the
source).  The two external collaborators invoked by the evaluator are
represented by their outcome at this subject: `validatorResult` is
`none` when `assertion.validator` is absent or not a function, and
otherwise carries the awaited `{valid, message}` result of calling it;
`schemaResult` carries the outcome of the Joi validation call
(`.error m` when the validator throws with message `m`). -/
structure Assertion : Type where
  target : Option String := none
  type : String := ""
  expected : JValue := .undefined
  header : String := ""
  path : String := ""
  maxDuration : Int := 0
  validatorResult : Option (Bool × String) := none
  schemaResult : Except String Unit := .ok ()

/-- Expression `response.metadata?.duration || 0`: the captured duration, with a
nullish metadata, a missing or zero duration (or a non-numeric one,
which the interceptors never produce) collapsing to `0`. -/
def durationOf (response : JValue) : Int :=
  match objGet (objGet response "metadata") "duration" with
  | .num n => n
  | _ => 0

/-- The `switch (assertion.type)` of `APITester.executeAssertion`, given
the already-resolved subject response.  Equality of `JValue`s models the
source's strict `!==` comparisons; on primitive values (the only ones
the interceptor-built responses put in `status`, headers and leaf body
fields) the two coincide, while reference equality of distinct object
instances is not modelled. -/
def assertionSwitch (response : JValue) (a : Assertion) : Except String Unit :=
  match a.type with
  | "status" =>
    if objGet response "status" = a.expected then .ok ()
    else .error ("Status assertion failed. Expected: " ++ toStringJS a.expected
      ++ ", Got: " ++ toStringJS (objGet response "status"))
  | "header" =>
    let headers := objGet response "headers"
    if headers = JValue.undefined ∨ headers = JValue.null then
      .error "TypeError: Cannot read properties of undefined"
    else
      let headerValue := objGet headers a.header.toLower
      if headerValue = a.expected then .ok ()
      else .error ("Header assertion failed. Expected: " ++ toStringJS a.expected
        ++ ", Got: " ++ toStringJS headerValue)
  | "body" =>
    let actualValue := getNestedValue (objGet response "data") a.path
    if actualValue = a.expected then .ok ()
    else .error ("Body assertion failed. Expected: " ++ toStringJS a.expected
      ++ ", Got: " ++ toStringJS actualValue)
  | "schema" =>
    match a.schemaResult with
    | .ok _ => .ok ()
    | .error m => .error ("Schema validation failed: " ++ m)
  | "performance" =>
    if durationOf response > a.maxDuration then
      .error ("Performance assertion failed. Expected: <" ++ toString a.maxDuration
        ++ "ms, Got: " ++ toString (durationOf response) ++ "ms")
    else .ok ()
  | "custom" =>
    match a.validatorResult with
    | none => .ok ()
    | some (valid, message) =>
      if valid then .ok () else .error ("Custom assertion failed: " ++ message)
  | _ => .error ("Unknown assertion type: " ++ a.type)

/-- The object key actually read by `testContext[assertion.target]`:
an absent target is the JavaScript `undefined`, which property access
coerces to the string key `"undefined"`; the same string is what the
error template interpolates. -/
def targetKey : Option String → String
  | some t => t
  | none => "undefined"

/-- Expression `testContext[assertion.target] || testContext.lastResponse`: the
subject of an assertion is the saved value named by `target` when that
value is truthy, and otherwise whatever sits in the fixed
`"lastResponse"` slot of the test context. -/
def resolveTarget (ctx : JFields) (target : Option String) : JValue :=
  let primary := ctxGet ctx (targetKey target)
  if truthy primary then primary else ctxGet ctx "lastResponse"

/-- Source `APITester.executeAssertion(step, testContext)`: resolve the subject
response, throw `No response found...` when it is falsy, and otherwise
run the assertion switch against it. -/
def executeAssertion (ctx : JFields) (a : Assertion) : Except String Unit :=
  let response := resolveTarget ctx a.target
  if truthy response then assertionSwitch response a
  else .error ("No response found for assertion target: " ++ targetKey a.target)

end API

namespace Engine

/-- A test step of `SmartQACore` (`src/core/engine.js`).  The action tag
is kept as a string, exactly as the source's `switch (step.action)`
dispatch; fields default to the JavaScript-falsy value the source's
truthiness tests observe for an absent property.  `handler` is the
external `custom` handler: `none` when `step.handler` is absent or not
a function, and otherwise the outcome of awaiting
`step.handler(page, step.params)`. -/
structure EngineStep : Type where
  name : String := ""
  action : String := ""
  url : String := ""
  waitUntil : Option String := none
  selector : String := ""
  value : String := ""
  text : String := ""
  timeout : Nat := 0
  handler : Option (Except String Unit) := none
  type : String := ""
  expected : JValue := .undefined
  continueOnFailure : Bool := false

/-- The external Playwright page, reduced to the operations the step
interpreter calls; each may fail with an error message.  `url` is the
synchronous `page.url()`; `locatorCount` is
`page.locator(selector).count()`. -/
structure Page : Type where
  goto : String → String → Except String Unit
  click : String → Except String Unit
  fill : String → String → Except String Unit
  typeText : String → String → Except String Unit
  waitForSelector : String → Except String Unit
  waitForTimeout : Nat → Except String Unit
  screenshot : Except String String
  textContent : String → Except String String
  isVisible : String → Except String Bool
  url : String
  locatorCount : String → Except String Int

/-- Source `SmartQACore.executeAssertion(page, step)`: the `switch (step.type)`
over live page state.  As with the API evaluator, `JValue` equality
models the strict `!==` comparisons on the primitive expected values
these assertions compare. -/
def engineAssert (page : Page) (step : EngineStep) : Except String Unit :=
  match step.type with
  | "text" => do
    let text ← page.textContent step.selector
    if step.expected = JValue.str text then .ok ()
    else .error ("Text assertion failed. Expected: \"" ++ toStringJS step.expected
      ++ "\", Got: \"" ++ text ++ "\"")
  | "visible" => do
    let isVisible ← page.isVisible step.selector
    if step.expected = JValue.bool isVisible then .ok ()
    else .error ("Visibility assertion failed. Expected: " ++ toStringJS step.expected
      ++ ", Got: " ++ toStringJS (JValue.bool isVisible))
  | "url" =>
    if step.expected = JValue.str page.url then .ok ()
    else .error ("URL assertion failed. Expected: \"" ++ toStringJS step.expected
      ++ "\", Got: \"" ++ page.url ++ "\"")
  | "count" => do
    let count ← page.locatorCount step.selector
    if step.expected = JValue.num count then .ok ()
    else .error ("Count assertion failed. Expected: " ++ toStringJS step.expected
      ++ ", Got: " ++ toString count)
  | _ => .error ("Unknown assertion type: " ++ step.type)

/-- The body of the `try` block of `SmartQACore.executeStep`: the
`switch (step.action)` dispatch.  The `ok` payload is the screenshot
recorded on the outcome by the `screenshot` action (`none` for every
other action).  In the `wait` action, `if (step.selector)` and
`else if (step.timeout)` test JavaScript truthiness, so the empty
selector and a zero timeout fall through to doing nothing; in the
`custom` action a missing (or non-function) handler is skipped without
error.  An unrecognized action throws `Unknown action`. -/
def stepBody (page : Page) (step : EngineStep) : Except String (Option String) :=
  match step.action with
  | "navigate" => do
    page.goto step.url ((step.waitUntil).getD "networkidle")
    return none
  | "click" => do
    page.click step.selector
    return none
  | "fill" => do
    page.fill step.selector step.value
    return none
  | "type" => do
    page.typeText step.selector step.text
    return none
  | "wait" =>
    if step.selector != "" then do
      page.waitForSelector step.selector
      return none
    else if step.timeout != 0 then do
      page.waitForTimeout step.timeout
      return none
    else return none
  | "screenshot" => do
    let s ← page.screenshot
    return some s
  | "assert" => do
    engineAssert page step
    return none
  | "custom" =>
    match step.handler with
    | some h => do
      h
      return none
    | none => return none
  | _ => .error ("Unknown action: " ++ step.action)

/-- The recorded result of one step (`stepResult`), with the transient
`running` state already resolved to `passed` or `failed`. -/
structure StepOutcome : Type where
  name : String
  action : String
  status : Status
  error : Option String := none
  screenshot : Option String := none
deriving DecidableEq

/-- Source `SmartQACore.executeStep(page, step)`: run the action body inside
`try`; completion marks the outcome `passed`, a caught error marks it
`failed` and records the message. -/
def executeStep (page : Page) (step : EngineStep) : StepOutcome :=
  match stepBody page step with
  | .ok shot =>
    { name := step.name, action := step.action, status := .passed, screenshot := shot }
  | .error e =>
    { name := step.name, action := step.action, status := .failed, error := some e }

/-- The step loop of `SmartQACore.executeTest`: execute the steps in
order, pushing every produced outcome; when a step's outcome is
`failed` and the step has no `continueOnFailure`, throw
`Step failed: ...` (returned here as the `some` error, ending the
loop).  Returns the pushed outcomes and the uncaught error, if any. -/
def runSteps (page : Page) : List EngineStep → List StepOutcome × Option String
  | [] => ([], none)
  | step :: rest =>
    let stepResult := executeStep page step
    if stepResult.status == Status.failed && !step.continueOnFailure then
      ([stepResult], some ("Step failed: " ++ (stepResult.error).getD "undefined"))
    else
      let (outs, err) := runSteps page rest
      (stepResult :: outs, err)

/-- A test definition as consumed by the engine: `steps` is `none` when
the property is absent (the source reads `test.steps || []`).  The
`id`/`name` identity fields are carried through unchanged (the source's
`test.id || \x60test_${Date.now()}\x60` fallback for a missing id is
wall-clock dependent and not modelled). -/
structure TestDefinition : Type where
  id : String := ""
  name : String := ""
  steps : Option (List EngineStep) := none

/-- The aggregated result of one test execution (`testResult`), with the
transient `running` state resolved.  `screenshots` holds the data of
the best-effort failure screenshots (empty when capture failed or the
test passed). -/
structure TestOutcome : Type where
  id : String
  name : String
  status : Status
  steps : List StepOutcome
  error : Option String := none
  screenshots : List String := []

/-- Source `SmartQACore.executeTest` after context/page acquisition: run the
step loop; if it completes, the test is `passed`; if it threw, the test
is `failed`, the error message is recorded, and a failure screenshot is
captured best-effort (a capture failure is only logged).  Context
teardown (`context.close()` in the `finally`) has no bearing on the
outcome value and is not represented. -/
def executeTest (page : Page) (test : TestDefinition) : TestOutcome :=
  match runSteps page ((test.steps).getD []) with
  | (outs, none) =>
    { id := test.id, name := test.name, status := .passed, steps := outs }
  | (outs, some e) =>
    { id := test.id, name := test.name, status := .failed, steps := outs, error := some e,
      screenshots := match page.screenshot with | .ok s => [s] | .error _ => [] }

end Engine

/-- A well-formed placeholder identifier for the interpolation pattern
`\{\{(\w+)\}\}`: a nonempty string of word characters. -/
def IsIdent (w : String) : Prop :=
  w.data ≠ [] ∧ ∀ c ∈ w.data, API.isWordChar c = true

instance (w : String) : Decidable (IsIdent w) := by
  unfold IsIdent; infer_instance

/-- One segment of a template string: either a literal chunk of text or
one `\x7b\x7bw\x7d\x7d` placeholder occurrence.  Decomposing an input string into
segments lets a single theorem speak about every placeholder occurrence
of the string at once, with arbitrary surrounding text. -/
inductive Segment : Type where
  | lit (chunk : String)
  | ph (w : String)

/-- The characters a segment contributes to the input string: a literal
chunk unchanged, a placeholder as two opening braces, its identifier,
and two closing braces. -/
def segChars : Segment → List Char
  | .lit chunk => chunk.data
  | .ph w => API.lbrace :: API.lbrace :: (w.data ++ API.rbrace :: API.rbrace :: [])

/-- The characters of the whole template: its segments concatenated. -/
def renderChars : List Segment → List Char
  | [] => []
  | s :: t => segChars s ++ renderChars t

/-- The input string denoted by a template. -/
def render (t : List Segment) : String :=
  String.mk (renderChars t)

/-- What the replacement callback of `interpolateVariables` produces for
one segment: a literal chunk is copied; a placeholder whose identifier
is bound in the store (to a value other than `undefined`) becomes the
stringified stored value, and an unresolved placeholder stays as its
own literal text. -/
def substSegChars (ctx : JFields) : Segment → List Char
  | .lit chunk => chunk.data
  | .ph w =>
    if ctxGet ctx w = JValue.undefined
    then API.lbrace :: API.lbrace :: (w.data ++ API.rbrace :: API.rbrace :: [])
    else (toStringJS (ctxGet ctx w)).data

/-- The segmentwise substitution over a whole template, as characters. -/
def substChars (ctx : JFields) : List Segment → List Char
  | [] => []
  | s :: t => substSegChars ctx s ++ substChars ctx t

/-- The segmentwise substitution over a whole template, as a string. -/
def subst (ctx : JFields) (t : List Segment) : String :=
  String.mk (substChars ctx t)

/-- Well-formedness of one segment: a literal chunk contains no opening
brace (so it can neither start a placeholder nor extend one), and a
placeholder identifier is a nonempty word (matching `\w+`). -/
def SegWF : Segment → Prop
  | .lit chunk => ∀ c ∈ chunk.data, c ≠ API.lbrace
  | .ph w => IsIdent w

instance (s : Segment) : Decidable (SegWF s) :=
  match s with
  | .lit chunk => inferInstanceAs (Decidable (∀ c ∈ chunk.data, c ≠ API.lbrace))
  | .ph w => inferInstanceAs (Decidable (IsIdent w))

/-- Well-formedness of a template: every segment is well-formed. -/
def TemplateWF (t : List Segment) : Prop :=
  ∀ s ∈ t, SegWF s

instance (t : List Segment) : Decidable (TemplateWF t) := by
  unfold TemplateWF; infer_instance

/-- The number of elements of an array value. -/
def arrLength : JArray → Nat
  | .nil => 0
  | .cons _ rest => arrLength rest + 1

/-- The keys of an object's fields, in order. -/
def fieldKeys : JFields → List String
  | .nil => []
  | .cons k _ rest => k :: fieldKeys rest

/-- A primitive JavaScript value (not an array or object): on such
values, `JValue` equality coincides with the strict `===`/`!==`
comparison of the source, which on objects and arrays would instead
compare references. -/
def isPrim : JValue → Bool
  | .arr _ => false
  | .obj _ => false
  | _ => true

/-- The endpoint of the C1 scenario: HTTP 500 on underlying calls 1 and
2 (indices 0 and 1), HTTP 200 on call 3.  Since the axios client is
configured with `validateStatus: () => true`, every received status is
delivered as a resolved response, never as a thrown error. -/
def c1Endpoint : Nat → Except String API.HttpResponse :=
  fun k => .ok { status := if k < 2 then 500 else 200 }

/-- The interpolation store of the spec's example: `a` bound to
`"x"`, `b` bound to `"y"`. -/
def c6Ctx : JFields :=
  .cons "a" (.str "x") (.cons "b" (.str "y") .nil)

/-- A response whose body is the structured value `{user: {id: 5}}`. -/
def c7Response : JValue :=
  .obj (.cons "data" (.obj (.cons "user" (.obj (.cons "id" (.num 5) .nil)) .nil)) .nil)

/-- A response whose body is `{user: {}}`: the `user` object has no
`id` field. -/
def c7ResponseEmpty : JValue :=
  .obj (.cons "data" (.obj (.cons "user" (.obj .nil) .nil)) .nil)

/-- A test context in which the most recently captured response was
saved under `saveAs: "r1"` (a truthy response with status 200); nothing
was ever saved under `"lastResponse"`. -/
def c8Ctx : JFields :=
  .cons "r1" (.obj (.cons "status" (.num 200) .nil)) .nil

/-- A status assertion naming no target, expecting HTTP 200. -/
def c8Assertion : API.Assertion :=
  { target := none, type := "status", expected := .num 200 }

/-- A test context whose `"lastResponse"` slot holds a truthy response
with status 200 (as a step with `saveAs: "lastResponse"` would leave
it). -/
def c8SlotCtx : JFields :=
  .cons "lastResponse" (.obj (.cons "status" (.num 200) .nil)) .nil

/-- A page on which every operation succeeds (the engine claims under
test here only depend on page behaviour through `executeStep`, which the
concrete witnesses drive through page-independent `custom` steps). -/
def okPage : Engine.Page :=
  { goto := fun _ _ => .ok ()
    click := fun _ => .ok ()
    fill := fun _ _ => .ok ()
    typeText := fun _ _ => .ok ()
    waitForSelector := fun _ => .ok ()
    waitForTimeout := fun _ => .ok ()
    screenshot := .ok "failure-screenshot"
    textContent := fun _ => .ok ""
    isVisible := fun _ => .ok true
    url := ""
    locatorCount := fun _ => .ok 0 }

/-- A step that always passes: a `custom` action with no handler. -/
def passStep : Engine.EngineStep :=
  { name := "pass", action := "custom" }

/-- A step that always fails: a `custom` action whose external handler
throws `boom`. -/
def failStep : Engine.EngineStep :=
  { name := "fail", action := "custom", handler := some (.error "boom") }

/-- The three-step witness test for C4: pass, blocking fail, pass. -/
def c4Test : Engine.TestDefinition :=
  { id := "t4", name := "c4", steps := some [passStep, failStep, passStep] }

open API Engine

/-- Helper: when the work unit fails on every attempt, the retry loop
exhausts the remaining budget, makes one further call per remaining
unit, and ends by throwing the error of the final attempt. -/
theorem retryGo_allFail {E A : Type} (work : Nat → Except E A) (err : Nat → E)
    (hw : ∀ k, work k = .error (err k)) (retries base : Nat) :
    ∀ (remaining attempt : Nat) (le : Option E) (calls delay : Nat),
      remaining ≠ 0 → attempt + remaining = retries →
      (retryGo work retries base remaining attempt le calls delay).1
          = .error (some (err (retries - 1)))
        ∧ (retryGo work retries base remaining attempt le calls delay).2.1
          = calls + remaining := by
  intro remaining
  induction remaining with
  | zero => intro attempt le calls delay h _; exact absurd rfl h
  | succ m ih =>
    intro attempt le calls delay _ hsum
    simp only [retryGo, hw]
    rcases Nat.eq_zero_or_pos m with h0 | hpos
    · subst h0
      have ha : attempt = retries - 1 := by omega
      subst ha
      simp [retryGo]
    · have h := ih (attempt + 1) (some (err attempt)) (calls + 1)
        (if attempt + 1 < retries then delay + 2 ^ (attempt + 1) * base else delay)
        (by omega) (by omega)
      exact ⟨h.1, by rw [h.2]; omega⟩

/-- C2: for every work unit that throws on every attempt and every
retry budget n ≥ 1, `makeRequest` calls the unit exactly n times and
then throws the error of the final (n-th) attempt, unchanged. -/
theorem makeRequest_allFail {E A : Type} (work : Nat → Except E A) (err : Nat → E)
    (hw : ∀ k, work k = .error (err k)) (n base : Nat) (hn : 1 ≤ n) :
    (makeRequest work n base).1 = .error (some (err (n - 1)))
      ∧ (makeRequest work n base).2.1 = n := by
  have h := retryGo_allFail work err hw n base n 0 none 0 0 (by omega) (by omega)
  unfold makeRequest
  exact ⟨h.1, by rw [h.2]; omega⟩

/-- Witness for C2 at a concrete always-failing work unit with budget
3: three calls are made and the error is rethrown unchanged. -/
theorem makeRequest_allFail_witness :
    (makeRequest (fun _ => (.error "boom" : Except String Nat)) 3 1000).1
        = .error (some "boom")
      ∧ (makeRequest (fun _ => (.error "boom" : Except String Nat)) 3 1000).2.1 = 3 :=
  makeRequest_allFail (fun _ => .error "boom") (fun _ => "boom") (fun _ => rfl) 3 1000
    (by decide)

/-- Helper: when the work unit fails on attempts with index `< m` and
succeeds at index `m < retries`, the retry loop started at attempt
`j ≤ m` returns the success, makes `m - j + 1` further calls, and adds
`Σ 2^i * base` for `i = j+1 .. m` of backoff delay (one wait after each
failure, computed from the post-increment attempt counter). -/
theorem retryGo_failThenSucceed {E A : Type} (work : Nat → Except E A) (err : Nat → E)
    (a : A) (m retries base : Nat)
    (hfail : ∀ k, k < m → work k = .error (err k)) (hsucc : work m = .ok a)
    (hm : m < retries) :
    ∀ (d j : Nat) (le : Option E) (calls delay : Nat), j + d = m →
      retryGo work retries base (retries - j) j le calls delay
        = (.ok a, calls + d + 1,
           delay + ∑ i in Finset.Ico (j + 1) (m + 1), 2 ^ i * base) := by
  intro d
  induction d with
  | zero =>
    intro j le calls delay hj
    have hjm : j = m := by omega
    subst hjm
    obtain ⟨r, hr⟩ : ∃ r, retries - j = r + 1 := ⟨retries - j - 1, by omega⟩
    rw [hr]
    simp only [retryGo, hsucc]
    simp
  | succ d ih =>
    intro j le calls delay hj
    obtain ⟨r, hr⟩ : ∃ r, retries - j = r + 1 := ⟨retries - j - 1, by omega⟩
    have hr2 : r = retries - (j + 1) := by omega
    have hcond : j + 1 < retries := by omega
    have h := ih (j + 1) (some (err j)) (calls + 1) (delay + 2 ^ (j + 1) * base)
      (by omega)
    rw [hr]
    simp only [retryGo, hfail j (by omega)]
    rw [if_pos hcond, hr2, h]
    have hsum : 2 ^ (j + 1) * base + ∑ i in Finset.Ico (j + 1 + 1) (m + 1), 2 ^ i * base
        = ∑ i in Finset.Ico (j + 1) (m + 1), 2 ^ i * base := by
      rw [Finset.sum_eq_sum_Ico_succ_bot (show j + 1 < m + 1 by omega)]
    simp only [Prod.mk.injEq]
    exact ⟨by trivial, by omega, by rw [add_assoc, hsum]⟩

/-- C3: for every work unit that throws on its first m attempts and
succeeds on attempt m+1, with m below the retry budget n, `makeRequest`
returns the success result after m+1 calls and the total backoff delay
waited is `Σ 2^i * base` for `i = 1 .. m`. -/
theorem makeRequest_failThenSucceed {E A : Type} (work : Nat → Except E A) (err : Nat → E)
    (a : A) (m n base : Nat)
    (hfail : ∀ k, k < m → work k = .error (err k)) (hsucc : work m = .ok a)
    (hm : m < n) :
    makeRequest work n base
      = (.ok a, m + 1, ∑ i in Finset.Icc 1 m, 2 ^ i * base) := by
  have h := retryGo_failThenSucceed work err a m n base hfail hsucc hm m 0 none 0 0
    (by omega)
  simp only [Nat.sub_zero, Nat.zero_add] at h
  unfold makeRequest
  rw [h, show Finset.Ico 1 (m + 1) = Finset.Icc 1 m from Nat.Ico_succ_right 1 m]

/-- Witness for C3: a work unit failing once then succeeding, with
budget 3 and base delay 10, returns the success after 2 calls having
waited 2^1 * 10 = 20 ms. -/
theorem makeRequest_failThenSucceed_witness :
    makeRequest (fun k => if k < 1 then (.error "e" : Except String Nat) else .ok 7) 3 10
      = (.ok 7, 2, 20) := by
  rw [makeRequest_failThenSucceed
    (fun k => if k < 1 then (.error "e" : Except String Nat) else .ok 7)
    (fun _ => "e") 7 1 3 10
    (by intro k hk; simp [Nat.lt_one_iff.mp hk]) (by decide) (by decide)]
  decide


/-- Helper: if the very first call of the work unit returns a response
(as every call does under `validateStatus: () => true` whenever the
transport succeeds and no schema validation fails), the retry loop
returns it after exactly one call and zero delay. -/
theorem makeRequest_firstOk {E A : Type} (work : Nat → Except E A) (a : A)
    (h0 : work 0 = .ok a) (n base : Nat) (hn : 1 ≤ n) :
    makeRequest work n base = (.ok a, 1, 0) := by
  obtain ⟨r, hr⟩ : ∃ r, n = r + 1 := ⟨n - 1, by omega⟩
  subst hr
  unfold makeRequest
  simp [retryGo, h0]

/-- C1 counterexample: against the endpoint that answers HTTP 500, 500,
200, a `request` step with retry budget 3 does NOT make 3 underlying
HTTP calls — the claim as stated fails (the 500 response is delivered,
not thrown, so no retry happens). -/
theorem executeRequestStep_scenario_not_three_calls :
    ¬ ((executeRequestStep c1Endpoint 3 10).1 = Status.passed
        ∧ (executeRequestStep c1Endpoint 3 10).2 = 3) := by
  decide

/-- C1 amended: against the 500/500/200 endpoint with retry budget 3,
the step outcome is `passed` and exactly ONE underlying HTTP call is
made; in general, any endpoint whose first call yields a response (any
status code) produces a passed outcome after one call, because
`validateStatus: () => true` keeps HTTP error statuses from ever
reaching the retry loop as errors. -/
theorem executeRequestStep_scenario_one_call :
    executeRequestStep c1Endpoint 3 10 = (Status.passed, 1)
      ∧ ∀ (endpoint : Nat → Except String HttpResponse) (r : HttpResponse)
          (n base : Nat), 1 ≤ n → endpoint 0 = .ok r →
          executeRequestStep endpoint n base = (Status.passed, 1) := by
  constructor
  · decide
  · intro endpoint r n base hn h0
    unfold executeRequestStep
    rw [makeRequest_firstOk endpoint r h0 n base hn]

/-- Witness for the general part of the amended C1: a constant-200
endpoint with budget 3 passes after one call. -/
theorem executeRequestStep_scenario_one_call_witness :
    executeRequestStep (fun _ => .ok { status := 200 }) 3 10 = (Status.passed, 1) :=
  executeRequestStep_scenario_one_call.2 (fun _ => .ok { status := 200 })
    { status := 200 } 3 10 (by decide) rfl

/-- Helper: the step loop stops at the first failing step whose
`continueOnFailure` is unset, having produced exactly the outcomes of
the steps up to and including it, and throws `Step failed` with that
step's error. -/
theorem runSteps_firstBlockingFailure (page : Page) :
    ∀ (steps : List EngineStep) (k : Nat) (hk : k < steps.length),
      (executeStep page (steps.get ⟨k, hk⟩)).status = Status.failed →
      (steps.get ⟨k, hk⟩).continueOnFailure = false →
      (∀ j (hj : j < k),
        ¬ ((executeStep page (steps.get ⟨j, lt_trans hj hk⟩)).status = Status.failed
            ∧ (steps.get ⟨j, lt_trans hj hk⟩).continueOnFailure = false)) →
      runSteps page steps
        = ((steps.take (k + 1)).map (executeStep page),
           some ("Step failed: "
             ++ ((executeStep page (steps.get ⟨k, hk⟩)).error).getD "undefined")) := by
  intro steps
  induction steps with
  | nil => intro k hk; exact absurd hk (by simp)
  | cons s rest ih =>
    intro k hk hfail hcof hbefore
    cases k with
    | zero =>
      simp only [List.get] at hfail hcof
      simp [runSteps, hfail, hcof]
    | succ q =>
      have h0 := hbefore 0 (Nat.succ_pos q)
      simp only [List.get] at h0 hfail hcof
      have hcond : ((executeStep page s).status == Status.failed
          && !s.continueOnFailure) = false := by
        cases hstat : (executeStep page s).status with
        | passed => simp
        | failed =>
          cases hcf : s.continueOnFailure with
          | true => simp
          | false => exact absurd ⟨hstat, hcf⟩ h0
      have hrest := ih q (Nat.lt_of_succ_lt_succ hk) hfail hcof
        (fun j hj => by
          have := hbefore (j + 1) (Nat.succ_lt_succ hj)
          simpa only [List.get] using this)
      simp only [runSteps, hcond, Bool.false_eq_true, if_false, hrest]
      simp [List.take, List.map]

/-- C4: for a test whose step sequence has a first failing step with
`continueOnFailure` unset (index k, 0-based), the test outcome is
`failed` and its steps list holds exactly the outcomes of steps
0 .. k — the loop never reaches a later step. -/
theorem executeTest_firstBlockingFailure (page : Page) (test : TestDefinition)
    (steps : List EngineStep) (hsteps : test.steps = some steps)
    (k : Nat) (hk : k < steps.length)
    (hfail : (executeStep page (steps.get ⟨k, hk⟩)).status = Status.failed)
    (hcof : (steps.get ⟨k, hk⟩).continueOnFailure = false)
    (hbefore : ∀ j (hj : j < k),
      ¬ ((executeStep page (steps.get ⟨j, lt_trans hj hk⟩)).status = Status.failed
          ∧ (steps.get ⟨j, lt_trans hj hk⟩).continueOnFailure = false)) :
    (executeTest page test).status = Status.failed
      ∧ (executeTest page test).steps = (steps.take (k + 1)).map (executeStep page) := by
  have h := runSteps_firstBlockingFailure page steps k hk hfail hcof hbefore
  unfold executeTest
  rw [hsteps]
  simp only [Option.getD_some]
  rw [h]
  exact ⟨rfl, rfl⟩

/-- Witness for C4: in the three-step test pass/fail/pass the outcome is
failed with exactly the first two step outcomes recorded. -/
theorem executeTest_firstBlockingFailure_witness :
    (executeTest okPage c4Test).status = Status.failed
      ∧ (executeTest okPage c4Test).steps
          = (([passStep, failStep, passStep].take 2).map (executeStep okPage)) :=
  executeTest_firstBlockingFailure okPage c4Test [passStep, failStep, passStep] rfl
    1 (by decide) (by decide) (by decide)
    (fun j hj => by
      have hj0 : j = 0 := by omega
      subst hj0
      simp only [List.get]
      decide)

/-- C5: a test whose steps list is absent or empty produces a passed
outcome with an empty steps list. -/
theorem executeTest_noSteps (page : Page) (test : TestDefinition)
    (h : test.steps = none ∨ test.steps = some []) :
    (executeTest page test).status = Status.passed
      ∧ (executeTest page test).steps = [] := by
  rcases h with h | h <;> simp [executeTest, h, runSteps]

/-- Witness for C5: a concrete stepless test passes with no step
outcomes. -/
theorem executeTest_noSteps_witness :
    (executeTest okPage { id := "t5", name := "c5" }).status = Status.passed
      ∧ (executeTest okPage { id := "t5", name := "c5" }).steps = [] :=
  executeTest_noSteps okPage { id := "t5", name := "c5" } (Or.inl rfl)

/-- C10: a `custom` step whose handler is absent (or not a function)
invokes nothing and yields a passed outcome with no error recorded. -/
theorem executeStep_custom_noHandler (page : Page) (step : EngineStep)
    (ha : step.action = "custom") (hh : step.handler = none) :
    (executeStep page step).status = Status.passed
      ∧ (executeStep page step).error = none := by
  simp [executeStep, stepBody, ha, hh, pure, Except.pure]

/-- Witness for C10: the concrete handlerless custom step passes. -/
theorem executeStep_custom_noHandler_witness :
    (executeStep okPage passStep).status = Status.passed
      ∧ (executeStep okPage passStep).error = none :=
  executeStep_custom_noHandler okPage passStep rfl rfl


/-- Helper: the interpolation scanner leaves the empty input alone, at
any fuel. -/
theorem interpGo_nil (ctx : JFields) : ∀ fuel, interpGo ctx fuel [] = [] := by
  intro fuel
  cases fuel <;> rfl

/-- Helper: taking/dropping word characters splits a run of word
characters followed by a non-word character exactly at the boundary. -/
theorem takeWhile_dropWhile_append {p : Char → Bool} :
    ∀ (w : List Char), (∀ c ∈ w, p c = true) →
      ∀ (x : Char) (rest : List Char), p x = false →
      (w ++ x :: rest).takeWhile p = w ∧ (w ++ x :: rest).dropWhile p = x :: rest := by
  intro w
  induction w with
  | nil =>
    intro _ x rest hx
    constructor
    · simp [List.takeWhile, hx]
    · simp [List.dropWhile, hx]
  | cons c cs ih =>
    intro hall x rest hx
    have hc : p c = true := hall c (List.mem_cons_self c cs)
    have ihr := ih (fun d hd => hall d (List.mem_cons_of_mem c hd)) x rest hx
    constructor
    · simp [List.takeWhile, hc, ihr.1]
    · simp [List.dropWhile, hc, ihr.2]

/-- Helper: the scanner copies a chunk of text containing no opening
brace verbatim (each character takes the final else branch) and
continues on the remainder with correspondingly less fuel. -/
theorem interpGo_lit_ge (ctx : JFields) :
    ∀ (chunk : List Char), (∀ c ∈ chunk, c ≠ lbrace) →
      ∀ (fuel : Nat) (rest : List Char), chunk.length ≤ fuel →
      interpGo ctx fuel (chunk ++ rest)
        = chunk ++ interpGo ctx (fuel - chunk.length) rest := by
  intro chunk
  induction chunk with
  | nil => intro _ fuel rest _; simp
  | cons c cs ih =>
    intro hall fuel rest hle
    obtain ⟨f, rfl⟩ : ∃ f, fuel = f + 1 := ⟨fuel - 1, by simp at hle; omega⟩
    have hc : ¬ (c = lbrace) := hall c (List.mem_cons_self c cs)
    have hcs : cs.length ≤ f := by simp at hle; omega
    simp only [List.cons_append, interpGo, if_neg hc, List.append_eq]
    rw [ih (fun d hd => hall d (List.mem_cons_of_mem c hd)) f rest hcs]
    simp [Nat.succ_sub_succ]

/-- Helper: at a placeholder occurrence `\x7b\x7bw\x7d\x7d` the scanner emits
the stringified bound value, or the placeholder itself when `w` is
unbound (or stored as `undefined`), and in either case resumes after
the match with one unit of fuel spent. -/
theorem interpGo_ph_ge (ctx : JFields) (w : String) (hw : IsIdent w) :
    ∀ (fuel : Nat) (rest : List Char), 1 ≤ fuel →
      interpGo ctx fuel (lbrace :: lbrace :: (w.data ++ rbrace :: rbrace :: rest))
        = (if ctxGet ctx w = JValue.undefined
           then lbrace :: lbrace :: (w.data ++ rbrace :: rbrace :: [])
           else (toStringJS (ctxGet ctx w)).data)
          ++ interpGo ctx (fuel - 1) rest := by
  intro fuel rest hf
  obtain ⟨f, rfl⟩ : ∃ f, fuel = f + 1 := ⟨fuel - 1, by omega⟩
  have hrb : isWordChar rbrace = false := by decide
  have htw := takeWhile_dropWhile_append w.data hw.2 rbrace (rbrace :: rest) hrb
  have hne : w.data.isEmpty = false := by
    cases hd : w.data with
    | nil => exact absurd hd hw.1
    | cons a l => rfl
  have hmk : String.mk w.data = w := rfl
  simp only [interpGo, htw.1, htw.2, hne, hmk, Nat.add_sub_cancel]
  by_cases hu : ctxGet ctx w = JValue.undefined
  · simp [hu]
  · simp [hu]

/-- Helper: `interpolateString` on the list underlying a `String.mk`. -/
theorem interpolateString_mk (ctx : JFields) (l : List Char) :
    interpolateString ctx (String.mk l) = String.mk (interpGo ctx l.length l) := rfl

/-- Helper: on a whole well-formed template — brace-free literal chunks
arbitrarily interleaved with placeholder occurrences — the scanner
performs exactly the segmentwise substitution, for any sufficient
fuel. -/
theorem interpGo_template (ctx : JFields) :
    ∀ (t : List Segment), TemplateWF t →
      ∀ fuel, (renderChars t).length ≤ fuel →
      interpGo ctx fuel (renderChars t) = substChars ctx t := by
  intro t
  induction t with
  | nil => intro _ fuel _; simp [renderChars, substChars, interpGo_nil]
  | cons s t2 ih =>
    intro hwf fuel hle
    have hwfs : SegWF s := hwf s (List.mem_cons_self s t2)
    have hwft : TemplateWF t2 := fun x hx => hwf x (List.mem_cons_of_mem s hx)
    cases s with
    | lit chunk =>
      have hlen : (renderChars (Segment.lit chunk :: t2)).length
          = chunk.data.length + (renderChars t2).length := by
        simp [renderChars, segChars]
      rw [hlen] at hle
      simp only [renderChars, segChars, substChars, substSegChars]
      rw [interpGo_lit_ge ctx chunk.data hwfs fuel (renderChars t2) (by omega)]
      rw [ih hwft (fuel - chunk.data.length) (by omega)]
    | ph w =>
      have hlen : (renderChars (Segment.ph w :: t2)).length
          = w.data.length + 4 + (renderChars t2).length := by
        simp [renderChars, segChars]
        omega
      rw [hlen] at hle
      simp only [renderChars, segChars, substChars, substSegChars]
      rw [show (lbrace :: lbrace :: (w.data ++ rbrace :: rbrace :: [])) ++ renderChars t2
          = lbrace :: lbrace :: (w.data ++ rbrace :: rbrace :: renderChars t2) by simp]
      rw [interpGo_ph_ge ctx w hwfs fuel (renderChars t2) (by omega)]
      rw [ih hwft (fuel - 1) (by omega)]

/-- Helper: interpolating an array preserves its length. -/
theorem arrLength_interpolateArr (ctx : JFields) :
    ∀ (items : JArray), arrLength (interpolateArr ctx items) = arrLength items
  | .nil => rfl
  | .cons _ rest => by
    simp only [interpolateArr, arrLength]
    rw [arrLength_interpolateArr ctx rest]

/-- Helper: interpolating an array interpolates exactly its elements,
position by position (out-of-range reads stay `undefined` on both
sides). -/
theorem arrGet_interpolateArr (ctx : JFields) :
    ∀ (items : JArray) (i : Nat), arrGet (interpolateArr ctx items) i
      = interpolateVariables ctx (arrGet items i)
  | .nil, _ => rfl
  | .cons v _, 0 => rfl
  | .cons _ rest, i + 1 => by
    simpa only [interpolateArr, arrGet] using arrGet_interpolateArr ctx rest i

/-- Helper: interpolating an object preserves its keys, in order. -/
theorem fieldKeys_interpolateObj (ctx : JFields) :
    ∀ (fields : JFields), fieldKeys (interpolateObj ctx fields) = fieldKeys fields
  | .nil => rfl
  | .cons k _ rest => by
    simp only [interpolateObj, fieldKeys]
    rw [fieldKeys_interpolateObj ctx rest]

/-- Helper: interpolating an object interpolates exactly its field
values, key by key (an absent key stays `undefined` on both sides). -/
theorem ctxGet_interpolateObj (ctx : JFields) :
    ∀ (fields : JFields) (key : String), ctxGet (interpolateObj ctx fields) key
      = interpolateVariables ctx (ctxGet fields key)
  | .nil, _ => rfl
  | .cons k v rest, key => by
    by_cases h : k = key
    · simp [interpolateObj, ctxGet, h]
    · simp [interpolateObj, ctxGet, h, ctxGet_interpolateObj ctx rest key]

/-- C6: interpolation replaces every `\x7b\x7bidentifier\x7d\x7d` occurrence
whose identifier is bound in the store by the stringified stored value
and leaves every unresolved placeholder literally unchanged, across all
input shapes: (1) for every store and every template — an arbitrary
interleaving of brace-free literal chunks and placeholder occurrences —
the interpolated string is the segmentwise substitution; (2) arrays are
interpolated elementwise, preserving length, each element recursively;
(3) objects are interpolated fieldwise, preserving the keys in order,
each value recursively; (4)–(6) the spec's concrete examples `\x7b\x7ba\x7d\x7d-\x7b\x7bb\x7d\x7d`
to `x-y`, unresolved `\x7b\x7bc\x7d\x7d` kept, and a nested object/array input.
The embedding is a pure function, so the input value is never
mutated. -/
theorem interpolateVariables_spec :
    (∀ (ctx : JFields) (t : List Segment), TemplateWF t →
      interpolateVariables ctx (.str (render t)) = .str (subst ctx t))
    ∧ (∀ (ctx : JFields) (items : JArray),
      interpolateVariables ctx (.arr items) = .arr (interpolateArr ctx items)
        ∧ arrLength (interpolateArr ctx items) = arrLength items
        ∧ ∀ i, arrGet (interpolateArr ctx items) i
            = interpolateVariables ctx (arrGet items i))
    ∧ (∀ (ctx : JFields) (fields : JFields),
      interpolateVariables ctx (.obj fields) = .obj (interpolateObj ctx fields)
        ∧ fieldKeys (interpolateObj ctx fields) = fieldKeys fields
        ∧ ∀ key, ctxGet (interpolateObj ctx fields) key
            = interpolateVariables ctx (ctxGet fields key))
    ∧ interpolateVariables c6Ctx (.str "\x7b\x7ba\x7d\x7d-\x7b\x7bb\x7d\x7d") = .str "x-y"
    ∧ interpolateVariables c6Ctx (.str "\x7b\x7bc\x7d\x7d") = .str "\x7b\x7bc\x7d\x7d"
    ∧ interpolateVariables c6Ctx
        (.obj (.cons "u" (.str "\x7b\x7ba\x7d\x7d")
          (.cons "v" (.arr (.cons (.str "p\x7b\x7bb\x7d\x7dq") .nil)) .nil)))
      = .obj (.cons "u" (.str "x")
          (.cons "v" (.arr (.cons (.str "pyq") .nil)) .nil)) := by
  refine ⟨?_, ?_, ?_, by decide, by decide, by decide⟩
  · intro ctx t hwf
    simp only [interpolateVariables]
    unfold render subst
    rw [interpolateString_mk]
    exact congrArg (fun l => JValue.str (String.mk l))
      (interpGo_template ctx t hwf _ le_rfl)
  · intro ctx items
    exact ⟨by simp [interpolateVariables], arrLength_interpolateArr ctx items,
      arrGet_interpolateArr ctx items⟩
  · intro ctx fields
    exact ⟨by simp [interpolateVariables], fieldKeys_interpolateObj ctx fields,
      ctxGet_interpolateObj ctx fields⟩

/-- Witness for C6: the two-placeholder template `\x7b\x7ba\x7d\x7d-\x7b\x7bb\x7d\x7d` of
the spec's example, interpolated against the example store, is the
segmentwise substitution. -/
theorem interpolateVariables_spec_witness :
    interpolateVariables c6Ctx
        (.str (render [Segment.ph "a", Segment.lit "-", Segment.ph "b"]))
      = .str (subst c6Ctx [Segment.ph "a", Segment.lit "-", Segment.ph "b"]) :=
  interpolateVariables_spec.1 c6Ctx
    [Segment.ph "a", Segment.lit "-", Segment.ph "b"] (by decide)

/-- C7: a `body` assertion with a dotted path passes exactly when the
value reached by traversing the path through the response body equals
the expected value, missing intermediate keys traversing to
`undefined`; concretely, path `user.id` against body `{user: {id: 5}}`
passes iff the expected value is 5, and against `{user: {}}` it fails
reporting the actual value as undefined.  The primitivity hypotheses
mark the domain on which `JValue` equality coincides with the strict
`!==` of the source (strict comparison of two distinct object
references is never structural). -/
theorem bodyAssertion_spec :
    (∀ (response : JValue) (a : Assertion), a.type = "body" →
      isPrim a.expected = true →
      (assertionSwitch response a = .ok ()
        ↔ getNestedValue (objGet response "data") a.path = a.expected))
    ∧ (∀ expected : JValue, isPrim expected = true →
        (assertionSwitch c7Response
            { type := "body", path := "user.id", expected := expected } = .ok ()
          ↔ expected = .num 5))
    ∧ assertionSwitch c7ResponseEmpty
        { type := "body", path := "user.id", expected := .num 5 }
        = .error "Body assertion failed. Expected: 5, Got: undefined" := by
  have part1 : ∀ (response : JValue) (a : Assertion), a.type = "body" →
      isPrim a.expected = true →
      (assertionSwitch response a = .ok ()
        ↔ getNestedValue (objGet response "data") a.path = a.expected) := by
    intro response a ht _
    simp only [assertionSwitch, ht]
    by_cases h : getNestedValue (objGet response "data") a.path = a.expected
    · simp [h]
    · simp [h]
  refine ⟨part1, ?_, by decide⟩
  intro expected hp
  have h5 : getNestedValue (objGet c7Response "data") "user.id" = .num 5 := by decide
  rw [part1 c7Response { type := "body", path := "user.id", expected := expected } rfl hp]
  rw [h5]
  exact eq_comm

/-- Witness for C7: the body assertion on `user.id` against
`{user: {id: 5}}` with expected value 5 passes. -/
theorem bodyAssertion_spec_witness :
    assertionSwitch c7Response
      { type := "body", path := "user.id", expected := .num 5 } = .ok () :=
  (bodyAssertion_spec.2.1 (.num 5) (by decide)).mpr rfl

/-- C8 counterexample: with the most recently captured response saved
under `r1` (the only capture of the execution) and nothing ever written
to `lastResponse`, a target-less status assertion is NOT evaluated
against that most recent response: evaluating against it would succeed,
but the actual execution throws `No response found`. -/
theorem executeAssertion_noTarget_counterexample :
    executeAssertion c8Ctx c8Assertion
        = .error "No response found for assertion target: undefined"
      ∧ assertionSwitch (ctxGet c8Ctx "r1") c8Assertion = .ok () := by
  decide

/-- C8 amended: a target-less assertion is evaluated against the fixed
`"lastResponse"` slot of the test context — a slot only ever filled by
a step carrying `saveAs: "lastResponse"`, not automatically by each
request — and when that slot is empty or falsy the step fails with
`No response found`. -/
theorem executeAssertion_noTarget_reads_slot (ctx : JFields) (a : Assertion)
    (ht : a.target = none) (hu : ctxGet ctx "undefined" = JValue.undefined) :
    executeAssertion ctx a
      = (if truthy (ctxGet ctx "lastResponse")
         then assertionSwitch (ctxGet ctx "lastResponse") a
         else .error "No response found for assertion target: undefined") := by
  simp only [executeAssertion, resolveTarget, targetKey, ht, hu]
  simp [truthy]

/-- Witness for C8: with a truthy response sitting in the
`"lastResponse"` slot, the target-less assertion is evaluated against
that slot. -/
theorem executeAssertion_noTarget_reads_slot_witness :
    executeAssertion c8SlotCtx c8Assertion
      = (if truthy (ctxGet c8SlotCtx "lastResponse")
         then assertionSwitch (ctxGet c8SlotCtx "lastResponse") c8Assertion
         else .error "No response found for assertion target: undefined") :=
  executeAssertion_noTarget_reads_slot c8SlotCtx c8Assertion rfl (by decide)

/-- C9 counterexample: with ramp-up window 0 and concurrency 2, the
offsets of workers 0 and 1 coincide, so the schedule is not strictly
increasing and the claim fails as universally stated over all ramp-up
windows. -/
theorem workerOffset_zero_rampUp_not_strict :
    workerOffset 0 2 0 = workerOffset 0 2 1
      ∧ ¬ workerOffset 0 2 0 < workerOffset 0 2 1 := by
  constructor <;> norm_num [workerOffset]

/-- C9 amended: worker i starts at offset i*r/c; for a positive ramp-up
window the offsets are strictly increasing, they are always evenly
spaced with gap r/c, and for concurrency 5 with window 5000 ms they are
0, 1000, 2000, 3000, 4000 ms. -/
theorem workerOffset_schedule :
    (∀ (c r i j : Nat), 1 ≤ c → 1 ≤ r → i < j →
      workerOffset r c i < workerOffset r c j)
    ∧ (∀ (c r i : Nat), 1 ≤ c →
      workerOffset r c (i + 1) - workerOffset r c i = (r : ℚ) / (c : ℚ))
    ∧ (List.range 5).map (workerOffset 5000 5) = [0, 1000, 2000, 3000, 4000] := by
  refine ⟨?_, ?_, by norm_num [List.range_succ, workerOffset]⟩
  · intro c r i j hc hr hij
    unfold workerOffset
    have hc0 : (0 : ℚ) < (c : ℚ) := by exact_mod_cast hc
    have hr0 : (0 : ℚ) < (r : ℚ) := by exact_mod_cast hr
    have hij2 : (i : ℚ) < (j : ℚ) := by exact_mod_cast hij
    rw [div_lt_div_iff₀ hc0 hc0]
    exact mul_lt_mul_of_pos_right (mul_lt_mul_of_pos_right hij2 hr0) hc0
  · intro c r i hc
    unfold workerOffset
    have hc0 : (c : ℚ) ≠ 0 := Nat.cast_ne_zero.mpr (by omega)
    push_cast
    field_simp
    ring

/-- Witness for C9: with concurrency 5 and window 5000, worker 0 starts
strictly before worker 1. -/
theorem workerOffset_schedule_witness :
    workerOffset 5000 5 0 < workerOffset 5000 5 1 :=
  workerOffset_schedule.1 5 5000 0 1 (by decide) (by decide) (by decide)

end SmartQA
